import Mathlib

/-!
# Shallow embedding of the `guthrum/chess` rules engine and solver

This file embeds the Rust sources of the repository (src/core.rs, src/engine.rs,
src/solver/mod.rs) as executable Lean definitions and proves the specification
claims about them.  Machine integers of the source (`isize`, `i32`) are embedded
as `Int` (the values involved are tiny, far from any overflow), `usize` indices
as `Nat`/`Fin 8`, and fallible Rust functions returning `Result<_, ChessError>`
as `Except ChessError _`.  Methods taking `&mut self` are embedded in
state-passing style: they return the updated receiver next to the `Result`.
-/

/-- core.rs `ChessError`: the three error kinds, each carrying a message. -/
inductive ChessError where
  | InvalidPiece : String → ChessError
  | InvalidMove : String → ChessError
  | SolverError : String → ChessError
deriving DecidableEq, Repr

/-- core.rs `Row`: the eight ranks, rank "1" first. -/
inductive Row where
  | One | Two | Three | Four | Five | Six | Seven | Eight
deriving DecidableEq, Repr, Fintype

/-- core.rs `Column`: the eight files, file "a" first. -/
inductive Column where
  | A | B | C | D | E | F | G | H
deriving DecidableEq, Repr, Fintype

/-- core.rs `impl From<Row> for usize` (the resulting `usize` is the `.val`;
it is below 8 by construction, which the source guarantees by the enum shape). -/
def Row.to_fin : Row → Fin 8
  | Row.One => 0
  | Row.Two => 1
  | Row.Three => 2
  | Row.Four => 3
  | Row.Five => 4
  | Row.Six => 5
  | Row.Seven => 6
  | Row.Eight => 7

/-- The `usize` value of a `Row` (core.rs `From<Row> for usize`). -/
def Row.to_idx (r : Row) : Nat := r.to_fin.val

/-- core.rs `impl TryFrom<isize> for Row`. -/
def Row.try_from (value : Int) : Except ChessError Row :=
  match value with
  | 0 => Except.ok Row.One
  | 1 => Except.ok Row.Two
  | 2 => Except.ok Row.Three
  | 3 => Except.ok Row.Four
  | 4 => Except.ok Row.Five
  | 5 => Except.ok Row.Six
  | 6 => Except.ok Row.Seven
  | 7 => Except.ok Row.Eight
  | _ => Except.error (ChessError.InvalidMove ("Invalid row: '" ++ toString value ++ "'"))

/-- core.rs `Row::try_add`. -/
def Row.try_add (r : Row) (amount : Int) : Except ChessError Row :=
  Row.try_from ((r.to_idx : Int) + amount)

/-- core.rs `impl From<Column> for usize`. -/
def Column.to_fin : Column → Fin 8
  | Column.A => 0
  | Column.B => 1
  | Column.C => 2
  | Column.D => 3
  | Column.E => 4
  | Column.F => 5
  | Column.G => 6
  | Column.H => 7

/-- The `usize` value of a `Column` (core.rs `From<Column> for usize`). -/
def Column.to_idx (c : Column) : Nat := c.to_fin.val

/-- core.rs `impl TryFrom<isize> for Column`. -/
def Column.try_from (value : Int) : Except ChessError Column :=
  match value with
  | 0 => Except.ok Column.A
  | 1 => Except.ok Column.B
  | 2 => Except.ok Column.C
  | 3 => Except.ok Column.D
  | 4 => Except.ok Column.E
  | 5 => Except.ok Column.F
  | 6 => Except.ok Column.G
  | 7 => Except.ok Column.H
  | _ => Except.error (ChessError.InvalidMove ("Invalid column: '" ++ toString value ++ "'"))

/-- core.rs `Column::try_add`. -/
def Column.try_add (c : Column) (amount : Int) : Except ChessError Column :=
  Column.try_from ((c.to_idx : Int) + amount)

/-- core.rs `Position`. -/
structure Position where
  row : Row
  column : Column
deriving DecidableEq, Repr

/-- core.rs `Position::board_position`: the `(x, y) = (column, row)` index pair
(source type `(usize, usize)`; the values are the `.val`s of this pair). -/
def Position.board_position (p : Position) : Fin 8 × Fin 8 :=
  (p.column.to_fin, p.row.to_fin)

/-- core.rs `Position::add_offset` (row offset added first, as in the source). -/
def Position.add_offset (p : Position) (row : Int) (column : Int) :
    Except ChessError Position := do
  let r ← p.row.try_add row
  let c ← p.column.try_add column
  Except.ok { row := r, column := c }

/-- core.rs `Move`. -/
structure Move where
  fromPos : Position
  toPos : Position
deriving DecidableEq, Repr

/-- core.rs `ChessPieceKind`. -/
inductive ChessPieceKind where
  | Pawn | Knight | Bishop | Rook | Queen | King
deriving DecidableEq, Repr, Fintype

/-- core.rs `ChessPieceKind::value` (source type `isize`). -/
def ChessPieceKind.value : ChessPieceKind → Int
  | ChessPieceKind.Pawn => 1
  | ChessPieceKind.Knight => 3
  | ChessPieceKind.Bishop => 3
  | ChessPieceKind.Rook => 5
  | ChessPieceKind.Queen => 9
  | ChessPieceKind.King => 200

/-- core.rs `ChessColour`. -/
inductive ChessColour where
  | White | Black
deriving DecidableEq, Repr, Fintype

/-- core.rs `ChessColour::direction`. -/
def ChessColour.direction : ChessColour → Int
  | ChessColour.White => 1
  | ChessColour.Black => -1

/-- core.rs `ChessColour::flip`. -/
def ChessColour.flip : ChessColour → ChessColour
  | ChessColour.White => ChessColour.Black
  | ChessColour.Black => ChessColour.White

/-- core.rs `ChessPiece`. -/
structure ChessPiece where
  kind : ChessPieceKind
  colour : ChessColour
  moved : Bool
deriving DecidableEq, Repr

/-- The kind `match` inside core.rs `impl TryFrom<char> for ChessPiece`. -/
def ChessPiece.kind_of_char (c : Char) : Except ChessError ChessPieceKind :=
  match c.toLower with
  | 'p' => Except.ok ChessPieceKind.Pawn
  | 'n' => Except.ok ChessPieceKind.Knight
  | 'b' => Except.ok ChessPieceKind.Bishop
  | 'r' => Except.ok ChessPieceKind.Rook
  | 'q' => Except.ok ChessPieceKind.Queen
  | 'k' => Except.ok ChessPieceKind.King
  | _ => Except.error (ChessError.InvalidPiece
      ("Invalid chess piece character: '" ++ toString c ++ "'"))

/-- core.rs `impl TryFrom<char> for ChessPiece` (the characters involved are
ASCII, where `Char.toLower`/`Char.isUpper` agree with the Rust
`to_ascii_lowercase`/`is_uppercase`). -/
def ChessPiece.try_from (c : Char) : Except ChessError ChessPiece :=
  ChessPiece.kind_of_char c >>= fun kind =>
    Except.ok
      { kind := kind,
        colour := if c.isUpper then ChessColour.White else ChessColour.Black,
        moved := false }

/-- core.rs `Cell`. -/
structure Cell where
  piece : Option ChessPiece
  colour : ChessColour
deriving DecidableEq, Repr

/-- core.rs `Cell::parse` at grid position `pos = (i, j)`: the piece slot is
`None` for a dot and `Some(ChessPiece::try_from(value)?)` otherwise. -/
def Cell.parse (value : Char) (pos : Nat × Nat) : Except ChessError Cell :=
  (if value = '.' then Except.ok none
   else (ChessPiece.try_from value).map some) >>= fun piece =>
    Except.ok
      { piece := piece,
        colour := if (pos.2 + pos.1) % 2 = 0 then ChessColour.White
          else ChessColour.Black }

/-- The `[[Cell; 8]; 8]` grid of core.rs, first index the row, second the column. -/
abbrev BoardGrid := Fin 8 → Fin 8 → Cell

/-- The single-cell array write `grid[i][j] = cell` of the source. -/
def BoardGrid.set (b : BoardGrid) (i j : Fin 8) (cell : Cell) : BoardGrid :=
  fun i' j' => if i' = i then (if j' = j then cell else b i' j') else b i' j'

/-- core.rs `ChessBoard`. -/
structure ChessBoard where
  board : BoardGrid
  turn : ChessColour
deriving DecidableEq

/-- core.rs `ChessBoard::get_piece_at`: `x` from the row, `y` from the column,
both bounds-checked against 8 before indexing (`&&` as nested conditionals). -/
def ChessBoard.get_piece_at (b : ChessBoard) (pos : Position) : Option Cell :=
  let x : Nat := pos.row.to_idx
  let y : Nat := pos.column.to_idx
  if hx : x < 8 then
    if hy : y < 8 then some (b.board ⟨x, hx⟩ ⟨y, hy⟩) else none
  else none

/-- core.rs `Row::try_from(row_index as isize).unwrap()` inside
`ChessBoard::pieces`: total because the index is below 8. -/
def Row.from_fin : Fin 8 → Row
  | ⟨0, _⟩ => Row.One
  | ⟨1, _⟩ => Row.Two
  | ⟨2, _⟩ => Row.Three
  | ⟨3, _⟩ => Row.Four
  | ⟨4, _⟩ => Row.Five
  | ⟨5, _⟩ => Row.Six
  | ⟨6, _⟩ => Row.Seven
  | ⟨7, _⟩ => Row.Eight
  | ⟨n + 8, h⟩ => absurd h (by omega)

/-- core.rs `Column::try_from(col_index as isize).unwrap()` inside
`ChessBoard::pieces`. -/
def Column.from_fin : Fin 8 → Column
  | ⟨0, _⟩ => Column.A
  | ⟨1, _⟩ => Column.B
  | ⟨2, _⟩ => Column.C
  | ⟨3, _⟩ => Column.D
  | ⟨4, _⟩ => Column.E
  | ⟨5, _⟩ => Column.F
  | ⟨6, _⟩ => Column.G
  | ⟨7, _⟩ => Column.H
  | ⟨n + 8, h⟩ => absurd h (by omega)

/-- core.rs `ChessBoard::pieces`: row-major enumeration of the occupied cells
with their positions. -/
def ChessBoard.pieces (b : ChessBoard) : List (Position × Cell) :=
  (List.finRange 8).flatMap fun row_index =>
    (List.finRange 8).filterMap fun col_index =>
      let cell := b.board row_index col_index
      if cell.piece.isSome then
        some ({ row := Row.from_fin row_index, column := Column.from_fin col_index }, cell)
      else none

/-- Rust `str::lines` over a character list: split on newline characters (the
trailing-empty-segment difference from `lines` is erased by the emptiness
filter applied right after in `from_str`; the diagrams contain no `\r`). -/
def splitLines : List Char → List (List Char)
  | [] => [[]]
  | c :: rest =>
    if c = '\n' then [] :: splitLines rest
    else
      match splitLines rest with
      | [] => [[c]]
      | l :: ls => (c :: l) :: ls

/-- Rust `str::trim` over a character list. -/
def trimChars (cs : List Char) : List Char :=
  ((cs.dropWhile Char.isWhitespace).reverse.dropWhile Char.isWhitespace).reverse

/-- The inner loop of core.rs `ChessBoard::from_str`: place the characters of
one line (row `i`) at columns `j, j+1, ...`, failing once `j` reaches 8. -/
def placeLine (i : Nat) (hi : i < 8) :
    BoardGrid → List Char → Nat → Except ChessError BoardGrid
  | b, [], _ => Except.ok b
  | b, c :: rest, j =>
    if hj : j < 8 then do
      let cell ← Cell.parse c (i, j)
      placeLine i hi (BoardGrid.set b ⟨i, hi⟩ ⟨j, hj⟩ cell) rest (j + 1)
    else Except.error (ChessError.InvalidPiece "too many columns on chess board")

/-- The outer loop of core.rs `ChessBoard::from_str`: place the lines at rows
`i, i+1, ...`, failing once `i` reaches 8. -/
def placeLines : BoardGrid → List (List Char) → Nat → Except ChessError BoardGrid
  | b, [], _ => Except.ok b
  | b, line :: rest, i =>
    if hi : i < 8 then do
      let b2 ← placeLine i hi b line 0
      placeLines b2 rest (i + 1)
    else Except.error (ChessError.InvalidPiece "too many rows on chess board")

/-- core.rs `impl FromStr for ChessBoard`: lines bottom-to-top (reversed),
trimmed, blank lines dropped; every cell starts as an empty white cell. -/
def ChessBoard.from_str (s : String) : Except ChessError ChessBoard := do
  let init : BoardGrid := fun _ _ => { piece := none, colour := ChessColour.White }
  let ls := (((splitLines s.toList).reverse.map trimChars).filter fun l => !l.isEmpty)
  let b ← placeLines init ls 0
  Except.ok { board := b, turn := ChessColour.White }

/-- The embedded diagram literal of core.rs `impl Default for ChessBoard`
(raw string, eight indented rank lines). -/
def default_board_str : String :=
  "\n        rnbqkbnr\n        .pp..ppp\n        ........\n        p..pp...\n        P..PP...\n        ........\n        .PP..PPP\n        RNBQKBRN\n    "

/-- core.rs `impl Default for ChessBoard`.  The source `.expect`s (panics) on a
parse failure; that branch is unreachable — `from_str default_board_str`
evaluates to `ok` — and is embedded as an all-empty fallback grid. -/
def ChessBoard.default : ChessBoard :=
  match ChessBoard.from_str default_board_str with
  | Except.ok b => { board := b.board, turn := ChessColour.White }
  | Except.error _ =>
    { board := fun _ _ => { piece := none, colour := ChessColour.White },
      turn := ChessColour.White }


/-- engine.rs `GameStatus`. -/
inductive GameStatus where
  | Ongoing | Checkmate | Stalemate
deriving DecidableEq, Repr

/-- engine.rs `ChessEngine`: the board plus move history and captured pieces. -/
structure ChessEngine where
  chess_board : ChessBoard
  moves : List Move
  taken_pieces : List ChessPiece
deriving DecidableEq

/-- engine.rs `ChessEngine::get_board`. -/
def ChessEngine.get_board (e : ChessEngine) : ChessBoard := e.chess_board

/-- engine.rs `ChessEngine::available_move_for_pawn`.  Single forward step and
diagonal captures swallow off-board failures; the double-step row computation
propagates its failure with `?`, as in the source. -/
def ChessEngine.available_move_for_pawn (e : ChessEngine) (pos : Position)
    (piece : ChessPiece) : Except ChessError (List Position) := do
  let direction := piece.colour.direction
  let m1 : List Position :=
    match pos.row.try_add direction with
    | Except.ok next_row => [{ row := next_row, column := pos.column }]
    | Except.error _ => []
  let m2 : List Position ←
    if piece.moved then pure m1
    else do
      let r1 ← pos.row.try_add direction
      let double_move_row ← r1.try_add direction
      pure (m1 ++ [{ row := double_move_row, column := pos.column }])
  let diags : List Position :=
    ([-1, 1] : List Int).filterMap fun i =>
      match pos.add_offset direction i with
      | Except.error _ => none
      | Except.ok diag =>
        match e.chess_board.get_piece_at diag with
        | none => none
        | some cell =>
          if (cell.piece.map fun p => p.colour != piece.colour).getD false
          then some diag else none
  Except.ok (m2 ++ diags)

/-- engine.rs `ChessEngine::available_move_for_king`: the four orthogonal unit
offsets, off-board results flattened away. -/
def ChessEngine.available_move_for_king (e : ChessEngine) (pos : Position)
    (piece : ChessPiece) : List Position :=
  ([((1 : Int), (0 : Int)), (-1, 0), (0, 1), (0, -1)]).filterMap fun ji =>
    (pos.add_offset ji.1 ji.2).toOption

/-- engine.rs `ChessEngine::available_move_for_knight`: the eight fixed
offsets, off-board results flattened away. -/
def ChessEngine.available_move_for_knight (e : ChessEngine) (pos : Position)
    (piece : ChessPiece) : Except ChessError (List Position) :=
  Except.ok <|
    ([((1 : Int), (2 : Int)), (1, -2), (-1, 2), (-1, -2),
      (2, 1), (2, -1), (-2, 1), (-2, -1)]).filterMap fun xy =>
      (pos.add_offset xy.1 xy.2).toOption

/-- The loop body of engine.rs `ChessEngine::moves_with_offset`, recursing over
the remaining multipliers `n`: an off-board multiplier is skipped (the loop
does not break), an on-board square is pushed, an occupied one also returns. -/
def ChessEngine.moves_with_offset_loop (e : ChessEngine) (pos : Position)
    (i j : Int) : List Int → List Position
  | [] => []
  | n :: ns =>
    match pos.add_offset (i * n) (j * n) with
    | Except.error _ => e.moves_with_offset_loop pos i j ns
    | Except.ok npos =>
      match e.chess_board.get_piece_at npos with
      | none => e.moves_with_offset_loop pos i j ns
      | some cell =>
        if cell.piece.isSome then [npos]
        else npos :: e.moves_with_offset_loop pos i j ns

/-- engine.rs `ChessEngine::moves_with_offset`: `for n in 1..8`. -/
def ChessEngine.moves_with_offset (e : ChessEngine) (pos : Position)
    (i j : Int) : List Position :=
  e.moves_with_offset_loop pos i j [1, 2, 3, 4, 5, 6, 7]

/-- engine.rs `ChessEngine::available_move_for_bishop`. -/
def ChessEngine.available_move_for_bishop (e : ChessEngine) (pos : Position)
    (piece : ChessPiece) : List Position :=
  ([((1 : Int), (1 : Int)), (-1, 1), (-1, -1), (1, -1)]).flatMap fun ij =>
    e.moves_with_offset pos ij.1 ij.2

/-- engine.rs `ChessEngine::available_move_for_rook`. -/
def ChessEngine.available_move_for_rook (e : ChessEngine) (pos : Position)
    (piece : ChessPiece) : List Position :=
  ([((1 : Int), (0 : Int)), (0, 1), (-1, 0), (0, -1)]).flatMap fun ij =>
    e.moves_with_offset pos ij.1 ij.2

/-- engine.rs `ChessEngine::available_move_for_queen`. -/
def ChessEngine.available_move_for_queen (e : ChessEngine) (pos : Position)
    (piece : ChessPiece) : List Position :=
  ([((1 : Int), (0 : Int)), (0, 1), (-1, 0), (0, -1),
    (1, 1), (-1, 1), (-1, -1), (1, -1)]).flatMap fun ij =>
    e.moves_with_offset pos ij.1 ij.2

/-- The final occupancy filter of engine.rs `ChessEngine::get_available_moves`:
keep a candidate only if its cell exists and is empty or opposing-coloured. -/
def ChessEngine.occupancy_filter (e : ChessEngine) (piece : ChessPiece)
    (m : Position) : Bool :=
  match e.chess_board.get_piece_at m with
  | some cell =>
    cell.piece.isNone || (cell.piece.map fun p => p.colour != piece.colour).getD false
  | none => false

/-- engine.rs `ChessEngine::get_available_moves`. -/
def ChessEngine.get_available_moves (e : ChessEngine) (pos : Position) :
    Except ChessError (List Position) :=
  match e.chess_board.get_piece_at pos with
  | none => Except.error (ChessError.InvalidMove "cell does not exist")
  | some cell =>
    match cell.piece with
    | some piece => do
      let raw_moves ←
        match piece.kind with
        | ChessPieceKind.Pawn => e.available_move_for_pawn pos piece
        | ChessPieceKind.Knight => e.available_move_for_knight pos piece
        | ChessPieceKind.Bishop => Except.ok (e.available_move_for_bishop pos piece)
        | ChessPieceKind.Rook => Except.ok (e.available_move_for_rook pos piece)
        | ChessPieceKind.Queen => Except.ok (e.available_move_for_queen pos piece)
        | ChessPieceKind.King => Except.ok (e.available_move_for_king pos piece)
      Except.ok (raw_moves.filter (e.occupancy_filter piece))
    | none => Except.ok []

/-- engine.rs `ChessEngine::make_move`, in state-passing style: the second
component is the engine after the call (the source takes `&mut self`; every
error is returned before any mutation, so those branches return `e` itself),
and the first is the returned `Result` with the `GameState` status. -/
def ChessEngine.make_move (e : ChessEngine) (fromPos toPos : Position) :
    (Except ChessError GameStatus) × ChessEngine :=
  match e.chess_board.get_piece_at fromPos with
  | none => (Except.error (ChessError.InvalidMove "from position does not exist"), e)
  | some from_cell =>
    match from_cell.piece with
    | none => (Except.error (ChessError.InvalidMove "no piece at from position"), e)
    | some from_piece =>
      if from_piece.colour ≠ e.chess_board.turn then
        (Except.error (ChessError.InvalidMove "cannot move opponent's piece"), e)
      else
      match e.get_available_moves fromPos with
      | Except.error err => (Except.error err, e)
      | Except.ok avail =>
        if toPos ∉ avail then (Except.error (ChessError.InvalidMove ""), e)
        else
          let moves2 := e.moves ++ [{ fromPos := fromPos, toPos := toPos }]
          let oxy := fromPos.board_position
          let nxy := toPos.board_position
          let taken_cell := e.chess_board.board nxy.2 nxy.1
          let old_cell := e.chess_board.board oxy.2 oxy.1
          let board2 := BoardGrid.set e.chess_board.board nxy.2 nxy.1
            { piece := old_cell.piece, colour := taken_cell.colour }
          let board3 := BoardGrid.set board2 oxy.2 oxy.1
            { piece := none, colour := old_cell.colour }
          let taken2 :=
            match taken_cell.piece with
            | some taken_piece => e.taken_pieces ++ [taken_piece]
            | none => e.taken_pieces
          (Except.ok GameStatus.Ongoing,
           { chess_board := { board := board3, turn := e.chess_board.turn.flip },
             moves := moves2,
             taken_pieces := taken2 })

/-- Modelled from the spec: the repository's `game` module (`ChessGame`,
declared by `mod game;` in main.rs and used by solver/mod.rs) is not among the
given sources.  Spec §4.3 describes the Rules Engine (Game) as exactly the
component embodied by engine.rs's `ChessEngine` — it owns the board, the move
history and the captured pieces, validates a move against its own
`get_available_moves` and flips the turn — so `ChessGame` is modelled as
`ChessEngine`. -/
abbrev ChessGame := ChessEngine

/-- Modelled from the spec: `ChessGame::make_move` as called by the solver
takes a `&Move`; §4.3's `make_move(from, to)` applied to the move's
endpoints. -/
def ChessGame.make_move_mv (g : ChessGame) (mv : Move) :
    (Except ChessError GameStatus) × ChessGame :=
  g.make_move mv.fromPos mv.toPos

/-- The loop body of solver/mod.rs `score_board`: accumulate the piece value
onto `(our_value, their_value)` according to the piece's colour. -/
def score_step (self_colour : ChessColour) (acc : Int × Int)
    (pc : Position × Cell) : Int × Int :=
  match pc.2.piece with
  | some chess_piece =>
    let value := chess_piece.kind.value
    if chess_piece.colour = self_colour then (acc.1 + value, acc.2)
    else (acc.1, acc.2 + value)
  | none => acc

/-- solver/mod.rs `score_board` (scores are `i32` in the source, embedded as
`Int`; the largest possible material sum is far below any overflow). -/
def score_board (board : ChessBoard) (self_colour : ChessColour) : Int :=
  let totals := board.pieces.foldl (score_step self_colour) (0, 0)
  totals.1 - totals.2

/-- solver/mod.rs `RecursionContext`.  The source stores a
`std::time::Instant` start time and compares `elapsed().as_secs()` against 5;
wall-clock time is not embeddable, so the elapsed whole seconds at the moment
`should_recurse` is asked are abstracted into the field `elapsed_secs`. -/
structure RecursionContext where
  depth : Nat
  elapsed_secs : Nat

/-- solver/mod.rs `RecursionContext::should_recurse`. -/
def RecursionContext.should_recurse (ctx : RecursionContext) : Bool :=
  ctx.depth < 10 && ctx.elapsed_secs ≤ 5

/-- solver/mod.rs `MoveState`. -/
structure MoveState where
  move_ : Move
  score : Int
  game : ChessGame

/-- The `move_options` vector built by solver/mod.rs
`best_move_from_position`: for every piece of `self_colour` (in `pieces()`
order), for every available destination (a failing `get_available_moves` is
skipped), clone the game, apply the move, and record it with the score of the
resulting board when the application succeeds. -/
def move_options (game : ChessGame) (self_colour : ChessColour) : List MoveState :=
  let movable_pieces : List (Position × ChessPiece) :=
    game.get_board.pieces.filterMap fun pc =>
      match pc.2.piece with
      | some piece => if piece.colour = self_colour then some (pc.1, piece) else none
      | none => none
  movable_pieces.flatMap fun pp =>
    match game.get_available_moves pp.1 with
    | Except.ok moves =>
      moves.filterMap fun to_pos =>
        let mv : Move := { fromPos := pp.1, toPos := to_pos }
        match game.make_move_mv mv with
        | (Except.ok _, new_game) =>
          some { move_ := mv, score := score_board new_game.get_board self_colour,
                 game := new_game }
        | (Except.error _, _) => none
    | Except.error _ => []

/-- The descending-by-score comparator of solver/mod.rs (`b.score.cmp(&a.score)`)
as a total boolean order for the stable merge sort behind `sort_by`. -/
def score_desc (a b : MoveState) : Bool := b.score ≤ a.score

/-- solver/mod.rs `best_move_from_position`: guard, build `move_options`, sort
descending by score (`sort_by` is a stable sort; a stable sort's output is
uniquely determined by the comparator and the input order, and Mathlib's
structural `insertionSort` is stable for this total preorder, so it models
`sort_by` exactly), pop the last element. -/
def best_move_from_position (game : ChessGame) (self_colour : ChessColour)
    (context : RecursionContext) : Option (Move × Int) :=
  if !context.should_recurse then none
  else
    (List.insertionSort (fun a b => score_desc a b = true)
        (move_options game self_colour)).getLast?.map
      fun m => (m.move_, m.score)

/-- solver/mod.rs `solve_next_move`.  The fresh `Instant::now()` start time is
abstracted as the whole seconds `elapsed_secs` that will have elapsed when the
top-level guard reads it. -/
def solve_next_move (game : ChessGame) (elapsed_secs : Nat) :
    Except ChessError Move :=
  let self_colour := game.get_board.turn
  let context : RecursionContext := { depth := 0, elapsed_secs := elapsed_secs }
  match best_move_from_position game self_colour context with
  | some ms => Except.ok ms.1
  | none => Except.error (ChessError.SolverError "No valid moves found")

/-- Equality of embedded `Result` values is decidable (used to evaluate the
engine on concrete fixtures). -/
instance {ε α : Type} [DecidableEq ε] [DecidableEq α] : DecidableEq (Except ε α) := fun a b =>
  match a, b with
  | Except.ok x, Except.ok y =>
    if h : x = y then isTrue (by rw [h]) else isFalse (by intro hc; cases hc; exact h rfl)
  | Except.error x, Except.error y =>
    if h : x = y then isTrue (by rw [h]) else isFalse (by intro hc; cases hc; exact h rfl)
  | Except.ok _, Except.error _ => isFalse (by intro hc; cases hc)
  | Except.error _, Except.ok _ => isFalse (by intro hc; cases hc)

/-! ## Claim-side definitions and concrete fixtures -/

/-- The piece occupying `pos`, read through `get_piece_at`. -/
def piece_at (b : ChessBoard) (pos : Position) : Option ChessPiece :=
  (b.get_piece_at pos).bind fun c => c.piece

/-- Whether the cell at `p` holds a piece (claim side, for the ray claim). -/
def occupied_at (b : ChessBoard) (p : Position) : Bool :=
  match b.get_piece_at p with
  | some cell => cell.piece.isSome
  | none => false

/-- Claim side (C6): the on-board squares along the ray from `pos` in
direction `(i, j)`, one to seven steps out, in order. -/
def on_board_ray (pos : Position) (i j : Int) : List Position :=
  ([1, 2, 3, 4, 5, 6, 7] : List Int).filterMap fun n =>
    (pos.add_offset (i * n) (j * n)).toOption

/-- Claim side (C6): the prefix of a square list up to and including the first
occupied square. -/
def take_through_occupied (b : ChessBoard) : List Position → List Position
  | [] => []
  | p :: ps =>
    if occupied_at b p then [p] else p :: take_through_occupied b ps

/-- Claim side (C5): the source's diagonal-capture condition — the square is
occupied by a piece of the colour opposing `piece`. -/
def opposing_at (b : ChessBoard) (p : Position) (piece : ChessPiece) : Bool :=
  match b.get_piece_at p with
  | some cell => (cell.piece.map fun q => q.colour != piece.colour).getD false
  | none => false

/-- Claim side (C8): every piece on the board has `moved = false`. -/
def all_unmoved (b : ChessBoard) : Bool :=
  (List.finRange 8).all fun i => (List.finRange 8).all fun j =>
    match (b.board i j).piece with
    | some p => !p.moved
    | none => true

/-- Claim side (C8): an engine owning a freshly parsed board, with empty move
and capture histories (the state of a new `ChessEngine` whose board was parsed
from a diagram). -/
def engine_of_board (b : ChessBoard) : ChessEngine :=
  { chess_board := b, moves := [], taken_pieces := [] }

/-- Claim side (C8): thread a sequence of `make_move` calls, `none` as soon as
one fails (the claim quantifies over sequences of successful calls). -/
def run_moves : ChessEngine → List (Position × Position) → Option ChessEngine
  | e, [] => some e
  | e, m :: ms =>
    match e.make_move m.1 m.2 with
    | (Except.ok _, e2) => run_moves e2 ms
    | (Except.error _, _) => none

/-- An empty white cell (the fixtures below fill a grid of these). -/
def empty_cell : Cell := { piece := none, colour := ChessColour.White }

/-- Fixture: a lone unmoved white pawn on a7 (row index 6, column index 0). -/
def pawn_a7_grid : BoardGrid := fun i j =>
  if i = (6 : Fin 8) ∧ j = (0 : Fin 8) then
    { piece := some { kind := ChessPieceKind.Pawn, colour := ChessColour.White,
                      moved := false },
      colour := ChessColour.White }
  else empty_cell

/-- Fixture engine for the pawn-on-a7 boards. -/
def pawn_a7_engine : ChessEngine :=
  engine_of_board { board := pawn_a7_grid, turn := ChessColour.White }

/-- Fixture: unmoved white pawn on a7 and a black knight on b8. -/
def pawn_a7_knight_b8_grid : BoardGrid := fun i j =>
  if i = (6 : Fin 8) ∧ j = (0 : Fin 8) then
    { piece := some { kind := ChessPieceKind.Pawn, colour := ChessColour.White,
                      moved := false },
      colour := ChessColour.White }
  else if i = (7 : Fin 8) ∧ j = (1 : Fin 8) then
    { piece := some { kind := ChessPieceKind.Knight, colour := ChessColour.Black,
                      moved := false },
      colour := ChessColour.White }
  else empty_cell

/-- Fixture engine for the pawn-on-a7 / knight-on-b8 board. -/
def pawn_a7_knight_b8_engine : ChessEngine :=
  engine_of_board { board := pawn_a7_knight_b8_grid, turn := ChessColour.White }

/-- Fixture: unmoved white pawn on a2 and a black rook on b3 (used as the
concrete successful-move witness board). -/
def pawn_a2_rook_b3_grid : BoardGrid := fun i j =>
  if i = (1 : Fin 8) ∧ j = (0 : Fin 8) then
    { piece := some { kind := ChessPieceKind.Pawn, colour := ChessColour.White,
                      moved := false },
      colour := ChessColour.White }
  else if i = (2 : Fin 8) ∧ j = (1 : Fin 8) then
    { piece := some { kind := ChessPieceKind.Rook, colour := ChessColour.Black,
                      moved := false },
      colour := ChessColour.White }
  else empty_cell

/-- Fixture engine for the pawn-on-a2 / rook-on-b3 board, white to move. -/
def pawn_a2_engine : ChessEngine :=
  engine_of_board { board := pawn_a2_rook_b3_grid, turn := ChessColour.White }

/-- Fixture: a lone white bishop on c1 with an otherwise empty board. -/
def bishop_c1_grid : BoardGrid := fun i j =>
  if i = (0 : Fin 8) ∧ j = (2 : Fin 8) then
    { piece := some { kind := ChessPieceKind.Bishop, colour := ChessColour.White,
                      moved := false },
      colour := ChessColour.White }
  else empty_cell

/-- Fixture engine: bishop on c1, empty diagonal. -/
def bishop_c1_engine : ChessEngine :=
  engine_of_board { board := bishop_c1_grid, turn := ChessColour.White }

/-- Fixture: white bishop on c1 and a black pawn on f4 blocking the a1-h8
direction diagonal. -/
def bishop_c1_block_f4_grid : BoardGrid := fun i j =>
  if i = (0 : Fin 8) ∧ j = (2 : Fin 8) then
    { piece := some { kind := ChessPieceKind.Bishop, colour := ChessColour.White,
                      moved := false },
      colour := ChessColour.White }
  else if i = (3 : Fin 8) ∧ j = (5 : Fin 8) then
    { piece := some { kind := ChessPieceKind.Pawn, colour := ChessColour.Black,
                      moved := false },
      colour := ChessColour.White }
  else empty_cell

/-- Fixture engine: bishop on c1, blocker on f4. -/
def bishop_c1_block_f4_engine : ChessEngine :=
  engine_of_board { board := bishop_c1_block_f4_grid, turn := ChessColour.White }

/-- Fixture: the entirely empty board. -/
def empty_board_engine : ChessEngine :=
  engine_of_board { board := fun _ _ => empty_cell, turn := ChessColour.White }


/-- Claim side (C4): the row computation of the pawn double step,
`pos.row.try_add(direction)?.try_add(direction)?` of the source. -/
def double_step_row (pos : Position) (piece : ChessPiece) : Except ChessError Row :=
  (pos.row.try_add piece.colour.direction).bind fun r1 =>
    r1.try_add piece.colour.direction

/-- Fixture diagram for the C8 witness: a single white pawn on a1. -/
def c8_diag : String := "P......."

/-- Fixture board for the C8 witness, extracted from the parse (the parse
succeeds; the fallback grid is unreachable). -/
def c8_board : ChessBoard :=
  match ChessBoard.from_str c8_diag with
  | Except.ok b => b
  | Except.error _ => { board := fun _ _ => empty_cell, turn := ChessColour.White }

/-- Fixture engine for the C8 witness after playing a1-a2, extracted from
`run_moves` (the run succeeds; the fallback is unreachable). -/
def c8_engine : ChessEngine :=
  match run_moves (engine_of_board c8_board)
      [({ row := Row.One, column := Column.A }, { row := Row.Two, column := Column.A })] with
  | some e => e
  | none => engine_of_board c8_board

/-! ## Helper lemmas -/

/-- The embedded default diagram parses successfully: the `.expect` in
core.rs `Default for ChessBoard` can never panic. -/
theorem default_board_parse_ok : (ChessBoard.from_str default_board_str).isOk = true := by
  decide

/-- `get_piece_at` never takes its `None` branch: every `Position` maps to
in-range indices, so the lookup returns the grid cell. -/
theorem get_piece_at_eq (b : ChessBoard) (pos : Position) :
    b.get_piece_at pos = some (b.board pos.row.to_fin pos.column.to_fin) := by
  simp [ChessBoard.get_piece_at, Row.to_idx, Column.to_idx]

/-- The ray loop equals the take-through-first-occupied view of the on-board
squares, for every multiplier list. -/
theorem moves_with_offset_loop_eq (e : ChessEngine) (pos : Position)
    (i j : Int) (ns : List Int) :
    e.moves_with_offset_loop pos i j ns =
      take_through_occupied e.chess_board
        (ns.filterMap fun n => (pos.add_offset (i * n) (j * n)).toOption) := by
  induction ns with
  | nil => rfl
  | cons n ns ih =>
    rw [ChessEngine.moves_with_offset_loop]
    cases h : pos.add_offset (i * n) (j * n) with
    | error err =>
      simpa [List.filterMap_cons, h, Except.toOption] using ih
    | ok npos =>
      simp only [List.filterMap_cons, h, Except.toOption, get_piece_at_eq,
        take_through_occupied, occupied_at]
      by_cases hp : (e.chess_board.board npos.row.to_fin npos.column.to_fin).piece.isSome
      · simp [hp]
      · simp [hp, ih, Except.toOption]

/-- One step of the material fold from White's perspective is the swap of one
step from Black's perspective on the swapped accumulator. -/
theorem score_step_swap (acc : Int × Int) (pc : Position × Cell) :
    (score_step ChessColour.White acc pc).swap =
      score_step ChessColour.Black acc.swap pc := by
  rcases pc with ⟨p, cell⟩
  rcases hq : cell.piece with _ | q
  · simp [score_step, hq]
  · cases hc : q.colour <;> simp [score_step, hq, hc]

/-- The material fold from White's perspective is the swap of the fold from
Black's perspective on the swapped accumulator. -/
theorem score_fold_swap (l : List (Position × Cell)) (acc : Int × Int) :
    l.foldl (score_step ChessColour.White) acc =
      (l.foldl (score_step ChessColour.Black) acc.swap).swap := by
  induction l generalizing acc with
  | nil => simp
  | cons pc l ih =>
    rw [List.foldl_cons, List.foldl_cons, ih, ← score_step_swap]

/-! ## Claim theorems -/

/-- Exhaustive shape of a `make_move` call: either it fails and returns the
engine unchanged, or it succeeds and the turn is flipped. -/
theorem make_move_cases (e : ChessEngine) (fromPos toPos : Position) :
    ((e.make_move fromPos toPos).1.isOk = false ∧ (e.make_move fromPos toPos).2 = e) ∨
    ((e.make_move fromPos toPos).1.isOk = true ∧
      (e.make_move fromPos toPos).2.chess_board.turn = e.chess_board.turn.flip) := by
  unfold ChessEngine.make_move
  split
  · left; exact ⟨rfl, rfl⟩
  · split
    · left; exact ⟨rfl, rfl⟩
    · split
      · left; exact ⟨rfl, rfl⟩
      · split
        · left; exact ⟨rfl, rfl⟩
        · split
          · left; exact ⟨rfl, rfl⟩
          · right; exact ⟨rfl, rfl⟩

/-- **C6** — Sliding-piece ray generation: for every board, position and ray
direction, `moves_with_offset` produces exactly the on-board squares along the
ray, one step out onward, up to and including the first occupied square (which
terminates the ray) or to the board edge; in particular, on the
bishop-on-c1 boards, h6 is reached over an empty diagonal, and a piece placed
on f4 makes f4 the last (still included) square of that ray. -/
theorem C6_sliding_ray_generation :
    (∀ (e : ChessEngine) (pos : Position) (i j : Int),
      e.moves_with_offset pos i j =
        take_through_occupied e.chess_board (on_board_ray pos i j)) ∧
    (∃ l, bishop_c1_engine.get_available_moves
        { row := Row.One, column := Column.C } = Except.ok l ∧
      ({ row := Row.Six, column := Column.H } : Position) ∈ l) ∧
    (bishop_c1_block_f4_engine.moves_with_offset
        { row := Row.One, column := Column.C } 1 1 =
      [{ row := Row.Two, column := Column.D }, { row := Row.Three, column := Column.E },
       { row := Row.Four, column := Column.F }]) ∧
    (∃ l, bishop_c1_block_f4_engine.get_available_moves
        { row := Row.One, column := Column.C } = Except.ok l ∧
      ({ row := Row.Four, column := Column.F } : Position) ∈ l ∧
      ({ row := Row.Five, column := Column.G } : Position) ∉ l ∧
      ({ row := Row.Six, column := Column.H } : Position) ∉ l) := by
  refine ⟨fun e pos i j => moves_with_offset_loop_eq e pos i j _, ?_, by decide, ?_⟩
  · exact ⟨[{ row := Row.Two, column := Column.D }, { row := Row.Three, column := Column.E },
      { row := Row.Four, column := Column.F }, { row := Row.Five, column := Column.G },
      { row := Row.Six, column := Column.H }, { row := Row.Two, column := Column.B },
      { row := Row.Three, column := Column.A }], by decide, by decide⟩
  · exact ⟨[{ row := Row.Two, column := Column.D }, { row := Row.Three, column := Column.E },
      { row := Row.Four, column := Column.F }, { row := Row.Two, column := Column.B },
      { row := Row.Three, column := Column.A }], by decide, by decide, by decide, by decide⟩

/-- **C10** — Evaluation antisymmetry: the material score of a board from
White's perspective is the negation of its score from Black's perspective. -/
theorem C10_score_board_antisymmetry (board : ChessBoard) :
    score_board board ChessColour.White = - score_board board ChessColour.Black := by
  unfold score_board
  rw [score_fold_swap]
  have h0 : ((((0 : Int), (0 : Int)) : Int × Int).swap) = (((0 : Int), (0 : Int)) : Int × Int) :=
    rfl
  rw [h0]
  rcases h : board.pieces.foldl (score_step ChessColour.Black)
      (((0 : Int), (0 : Int)) : Int × Int) with ⟨a, b⟩
  simp [Prod.swap]

/-- **C9** — `get_piece_at` never reports a missing cell (every `Position`
maps to an in-range index), and `get_available_moves` on a position whose cell
holds no piece returns `Ok` with the empty list. -/
theorem C9_empty_cell_moves (e : ChessEngine) (pos : Position) :
    (e.chess_board.get_piece_at pos).isSome = true ∧
    (∀ cell, e.chess_board.get_piece_at pos = some cell → cell.piece = none →
      e.get_available_moves pos = Except.ok []) := by
  constructor
  · rw [get_piece_at_eq]; rfl
  · intro cell hc hp
    unfold ChessEngine.get_available_moves
    rw [hc]
    simp [hp]

/-- Witness for C9 at a concrete input: the empty board at a1. -/
theorem C9_empty_cell_moves_witness :
    empty_board_engine.get_available_moves { row := Row.One, column := Column.A } =
      Except.ok [] :=
  (C9_empty_cell_moves empty_board_engine _).2 empty_cell (by decide) (by decide)

/-- **C1** — `make_move` turn alternation and failure atomicity: a successful
call flips the turn; a failed call leaves the whole engine (board, turn, move
history, capture list) exactly as it was. -/
theorem C1_make_move_turn_and_atomicity (e : ChessEngine) (fromPos toPos : Position) :
    ((e.make_move fromPos toPos).1.isOk = true →
      (e.make_move fromPos toPos).2.chess_board.turn = e.chess_board.turn.flip) ∧
    ((e.make_move fromPos toPos).1.isOk = false →
      (e.make_move fromPos toPos).2 = e) := by
  rcases make_move_cases e fromPos toPos with ⟨h1, h2⟩ | ⟨h1, h2⟩
  · exact ⟨fun h => absurd h (by simp [h1]), fun _ => h2⟩
  · exact ⟨fun _ => h2, fun h => absurd h (by simp [h1])⟩

/-- Witness for C1 at a concrete input: the pawn-a2 board, move a2 to a3
succeeds and the turn flips. -/
theorem C1_make_move_turn_and_atomicity_witness :
    (pawn_a2_engine.make_move { row := Row.Two, column := Column.A }
        { row := Row.Three, column := Column.A }).2.chess_board.turn =
      pawn_a2_engine.chess_board.turn.flip :=
  (C1_make_move_turn_and_atomicity pawn_a2_engine _ _).1 (by decide)

/-- **C3** — Evaluation of the default-constructed board at the cells where it
diverges from the standard chess starting position: a2 and e2 are empty, white
pawns stand on a4, d4 and e4 (and black pawns on a5, d5, e5), and the white
back rank ends R on g1, N on h1 (swapped relative to the standard N on g1,
R on h1). -/
theorem C3_default_board_divergence :
    piece_at ChessBoard.default { row := Row.Two, column := Column.A } = none ∧
    piece_at ChessBoard.default { row := Row.Two, column := Column.E } = none ∧
    piece_at ChessBoard.default { row := Row.Four, column := Column.A } =
      some { kind := ChessPieceKind.Pawn, colour := ChessColour.White, moved := false } ∧
    piece_at ChessBoard.default { row := Row.Four, column := Column.E } =
      some { kind := ChessPieceKind.Pawn, colour := ChessColour.White, moved := false } ∧
    piece_at ChessBoard.default { row := Row.Five, column := Column.A } =
      some { kind := ChessPieceKind.Pawn, colour := ChessColour.Black, moved := false } ∧
    piece_at ChessBoard.default { row := Row.One, column := Column.G } =
      some { kind := ChessPieceKind.Rook, colour := ChessColour.White, moved := false } ∧
    piece_at ChessBoard.default { row := Row.One, column := Column.H } =
      some { kind := ChessPieceKind.Knight, colour := ChessColour.White, moved := false } := by
  decide

/-- Inversion of a successful `Except` bind: the first stage succeeded and the
continuation maps its value to the final result. -/
theorem except_bind_ok_inv {ε α β : Type} (g : Except ε α) (f : α → Except ε β)
    (y : β) (h : g >>= f = Except.ok y) :
    ∃ x, g = Except.ok x ∧ f x = Except.ok y := by
  cases g with
  | ok x => exact ⟨x, rfl, h⟩
  | error err => simp [Bind.bind, Except.bind] at h

/-- The final occupancy filter only lets through destinations whose cell is
empty or opposing-coloured. -/
theorem occupancy_filter_closure (e : ChessEngine) (piece : ChessPiece)
    (raw : List Position) (m : Position)
    (hm : m ∈ raw.filter (e.occupancy_filter piece)) :
    ∃ c2, e.chess_board.get_piece_at m = some c2 ∧
      (c2.piece = none ∨ ∃ q, c2.piece = some q ∧ q.colour ≠ piece.colour) := by
  have hpred : e.occupancy_filter piece m = true := (List.mem_filter.mp hm).2
  unfold ChessEngine.occupancy_filter at hpred
  rw [get_piece_at_eq] at hpred
  dsimp only at hpred
  refine ⟨_, get_piece_at_eq e.chess_board m, ?_⟩
  cases hc2 : (e.chess_board.board m.row.to_fin m.column.to_fin).piece with
  | none => exact Or.inl rfl
  | some q =>
    rw [hc2] at hpred
    simp only [Option.isNone_some, Option.map_some, Option.getD_some,
      Bool.false_or] at hpred
    refine Or.inr ⟨q, rfl, ?_⟩
    simpa using hpred

/-- **C2** — Legality closure: any destination in a list returned by
`get_available_moves` for an occupied position lands on a cell that is empty
or holds a piece of the opposing colour, never a friendly piece. -/
theorem C2_legality_closure (e : ChessEngine) (pos : Position) (cell : Cell)
    (piece : ChessPiece) (l : List Position) (m : Position)
    (hcell : e.chess_board.get_piece_at pos = some cell)
    (hpiece : cell.piece = some piece)
    (hok : e.get_available_moves pos = Except.ok l)
    (hm : m ∈ l) :
    ∃ c2, e.chess_board.get_piece_at m = some c2 ∧
      (c2.piece = none ∨ ∃ q, c2.piece = some q ∧ q.colour ≠ piece.colour) := by
  unfold ChessEngine.get_available_moves at hok
  rw [hcell] at hok
  simp only [hpiece] at hok
  cases hk : piece.kind <;>
    rw [hk] at hok <;>
    (obtain ⟨raw, hgen, hfil⟩ := except_bind_ok_inv _ _ _ hok;
     cases hfil;
     exact occupancy_filter_closure e piece raw m hm)

/-- Witness for C2 at a concrete input: from a2 on the pawn-a2 board, the
diagonal capture b3 lands on the opposing rook. -/
theorem C2_legality_closure_witness :
    ∃ c2, pawn_a2_engine.chess_board.get_piece_at
        { row := Row.Three, column := Column.B } = some c2 ∧
      (c2.piece = none ∨ ∃ q, c2.piece = some q ∧
        q.colour ≠ ChessColour.White) :=
  C2_legality_closure pawn_a2_engine { row := Row.Two, column := Column.A }
    (Cell.mk (some (ChessPiece.mk ChessPieceKind.Pawn ChessColour.White false))
      ChessColour.White)
    (ChessPiece.mk ChessPieceKind.Pawn ChessColour.White false)
    [{ row := Row.Three, column := Column.A }, { row := Row.Four, column := Column.A },
     { row := Row.Three, column := Column.B }]
    { row := Row.Three, column := Column.B }
    (by decide) (by decide) (by decide) (by decide)

/-- A bind whose continuation always succeeds is as successful as its first
stage. -/
theorem except_bind_ok_isOk {ε α β : Type} (g : Except ε α) (f : α → β) :
    (g >>= fun x => Except.ok (f x)).isOk = g.isOk := by
  cases g <;> rfl

/-- The pawn generator succeeds exactly when the piece has moved or the
double-step row computation stays on the board: the single forward step and
the diagonal captures never fail. -/
theorem pawn_gen_isOk (e : ChessEngine) (pos : Position) (piece : ChessPiece) :
    (e.available_move_for_pawn pos piece).isOk =
      (piece.moved || (double_step_row pos piece).isOk) := by
  unfold ChessEngine.available_move_for_pawn double_step_row
  cases hmv : piece.moved
  · simp only [hmv, Bool.false_eq_true, if_false, Bool.false_or]
    cases hA : pos.row.try_add piece.colour.direction with
    | error err => simp only [Bind.bind, Except.bind, hA]; rfl
    | ok r1 =>
      cases hB : r1.try_add piece.colour.direction with
      | error err => simp only [Bind.bind, Except.bind, hA, hB]; rfl
      | ok r2 => simp only [Bind.bind, Except.bind, hA, hB]; rfl
  · simp only [hmv, if_true]
    rfl

/-- **C4** (amended) — `get_available_moves` on an occupied position returns
`Ok` in every case except one: a pawn whose `moved` flag is false and whose
two-squares-forward row computation leaves the board, where the failure is
propagated as an error instead of being swallowed. -/
theorem C4_available_moves_ok_iff (e : ChessEngine) (pos : Position) (cell : Cell)
    (piece : ChessPiece)
    (hcell : e.chess_board.get_piece_at pos = some cell)
    (hpiece : cell.piece = some piece) :
    (e.get_available_moves pos).isOk = true ↔
      (piece.kind ≠ ChessPieceKind.Pawn ∨ piece.moved = true ∨
        (double_step_row pos piece).isOk = true) := by
  unfold ChessEngine.get_available_moves
  rw [hcell]
  simp only [hpiece]
  cases hk : piece.kind
  case Pawn =>
    rw [except_bind_ok_isOk, pawn_gen_isOk]
    simp [hk]
  all_goals simp [hk, ChessEngine.available_move_for_knight, Bind.bind, Except.bind] <;> rfl

/-- Counterexample to C4 as stated: an unmoved white pawn on a7 is an occupied
position on which `get_available_moves` returns an error (the off-board
two-squares-forward row is not swallowed). -/
theorem C4_counterexample :
    piece_at pawn_a7_engine.chess_board { row := Row.Seven, column := Column.A } =
      some (ChessPiece.mk ChessPieceKind.Pawn ChessColour.White false) ∧
    pawn_a7_engine.get_available_moves { row := Row.Seven, column := Column.A } =
      Except.error (ChessError.InvalidMove "Invalid row: '8'") := by
  decide

/-- Witness for the amended C4 at a concrete input: the pawn-a2 board, where
the double-step row stays on the board and the call succeeds. -/
theorem C4_available_moves_ok_iff_witness :
    (pawn_a2_engine.get_available_moves { row := Row.Two, column := Column.A }).isOk
      = true :=
  (C4_available_moves_ok_iff pawn_a2_engine { row := Row.Two, column := Column.A }
    (Cell.mk (some (ChessPiece.mk ChessPieceKind.Pawn ChessColour.White false))
      ChessColour.White)
    (ChessPiece.mk ChessPieceKind.Pawn ChessColour.White false)
    (by decide) (by decide)).mpr (by decide)

/-- Adding −1 or +1 to a column never returns the same column. -/
theorem col_try_add_pm_ne : ∀ (c c2 : Column),
    (c.try_add (-1) = Except.ok c2 → c2 ≠ c) ∧
    (c.try_add 1 = Except.ok c2 → c2 ≠ c) := by decide

/-- Adding −1 and +1 to the same column cannot produce the same column. -/
theorem col_try_add_pm_distinct : ∀ (c c2 : Column),
    c.try_add (-1) = Except.ok c2 → c.try_add 1 = Except.ok c2 → False := by decide

/-- Inversion of a successful `add_offset`: both axis additions succeeded. -/
theorem add_offset_ok (p : Position) (dr dc : Int) (q : Position)
    (h : p.add_offset dr dc = Except.ok q) :
    p.row.try_add dr = Except.ok q.row ∧ p.column.try_add dc = Except.ok q.column := by
  unfold Position.add_offset at h
  cases hr : p.row.try_add dr with
  | error err => simp [Bind.bind, Except.bind, hr] at h
  | ok r =>
    cases hc : p.column.try_add dc with
    | error err => simp [Bind.bind, Except.bind, hr, hc] at h
    | ok c =>
      simp only [Bind.bind, Except.bind, hr, hc, Except.ok.injEq] at h
      subst h
      exact ⟨rfl, rfl⟩


/-- Membership in the pawn's diagonal-capture list: a square is offered there
exactly when it is a diagonal-forward square and holds an opposing piece. -/
theorem pawn_diag_mem (e : ChessEngine) (pos : Position) (piece : ChessPiece)
    (dpos : Position) :
    (dpos ∈ (([-1, 1] : List Int).filterMap fun i =>
      match pos.add_offset piece.colour.direction i with
      | Except.error _ => none
      | Except.ok diag =>
        match e.chess_board.get_piece_at diag with
        | none => none
        | some cell =>
          if (cell.piece.map fun p => p.colour != piece.colour).getD false
          then some diag else none)) ↔
    ((∃ i ∈ ([-1, 1] : List Int),
        pos.add_offset piece.colour.direction i = Except.ok dpos) ∧
      opposing_at e.chess_board dpos piece = true) := by
  rw [List.mem_filterMap]
  constructor
  · rintro ⟨i, hi, hf⟩
    cases ha : pos.add_offset piece.colour.direction i with
    | error err => rw [ha] at hf; cases hf
    | ok diag =>
      rw [ha] at hf
      dsimp only at hf
      rw [get_piece_at_eq] at hf
      dsimp only at hf
      split at hf
      · cases hf
        refine ⟨⟨i, hi, ha⟩, ?_⟩
        unfold opposing_at
        rw [get_piece_at_eq]
        assumption
      · cases hf
  · rintro ⟨⟨i, hi, ha⟩, hopp⟩
    refine ⟨i, hi, ?_⟩
    unfold opposing_at at hopp
    rw [get_piece_at_eq] at hopp
    dsimp only at hopp
    rw [ha]
    dsimp only
    rw [get_piece_at_eq]
    dsimp only
    rw [if_pos hopp]

/-- **C5** (amended) — Pawn candidate generation, whenever the generator
returns a list (it errors instead when `moved` is false and the two-forward
row leaves the board): the two-squares-forward destination is offered whenever
`moved` is false, regardless of the intervening square's occupancy; and each
diagonal-forward square is offered exactly when it holds an opposing piece. -/
theorem C5_pawn_candidate_generation (e : ChessEngine) (pos : Position)
    (piece : ChessPiece) (l : List Position)
    (hok : e.available_move_for_pawn pos piece = Except.ok l) :
    (piece.moved = false → ∃ r2, double_step_row pos piece = Except.ok r2 ∧
      ({ row := r2, column := pos.column } : Position) ∈ l) ∧
    (∀ i ∈ ([-1, 1] : List Int), ∀ dpos,
      pos.add_offset piece.colour.direction i = Except.ok dpos →
      (dpos ∈ l ↔ opposing_at e.chess_board dpos piece = true)) := by
  unfold ChessEngine.available_move_for_pawn at hok
  cases hmv : piece.moved
  case false =>
    rw [hmv] at hok
    obtain ⟨r1, hA, h1⟩ := except_bind_ok_inv _ _ _ hok
    obtain ⟨dm, hB, h2⟩ := except_bind_ok_inv _ _ _ h1
    obtain ⟨m2, hpure, hk⟩ := except_bind_ok_inv _ _ _ h2
    injection hpure with hpure
    subst hpure
    injection hk with hk
    subst hk
    have hm2col : ∀ x ∈ (match pos.row.try_add piece.colour.direction with
        | Except.ok next_row => [({ row := next_row, column := pos.column } : Position)]
        | Except.error _ => []) ++ [({ row := dm, column := pos.column } : Position)],
        x.column = pos.column := by
      intro x hx
      rcases List.mem_append.mp hx with hx | hx
      · cases hs : pos.row.try_add piece.colour.direction with
        | ok next_row => rw [hs] at hx; rw [List.mem_singleton.mp hx]
        | error err => rw [hs] at hx; cases hx
      · rw [List.mem_singleton.mp hx]
    constructor
    · intro _
      refine ⟨dm, ?_, ?_⟩
      · unfold double_step_row
        rw [hA]
        simpa [Except.bind] using hB
      · exact List.mem_append.mpr (Or.inl (List.mem_append.mpr
          (Or.inr (List.mem_singleton.mpr rfl))))
    · intro i hi dpos hadd
      have hdcol : dpos.column ≠ pos.column := by
        obtain ⟨-, hc⟩ := add_offset_ok _ _ _ _ hadd
        have hi2 : i = -1 ∨ i = 1 := by simpa using hi
        rcases hi2 with rfl | rfl
        · exact (col_try_add_pm_ne pos.column dpos.column).1 hc
        · exact (col_try_add_pm_ne pos.column dpos.column).2 hc
      constructor
      · intro hmem
        rcases List.mem_append.mp hmem with hmem | hmem
        · exact absurd (hm2col dpos hmem) hdcol
        · exact ((pawn_diag_mem e pos piece dpos).mp hmem).2
      · intro hopp
        exact List.mem_append.mpr (Or.inr
          ((pawn_diag_mem e pos piece dpos).mpr ⟨⟨i, hi, hadd⟩, hopp⟩))
  case true =>
    rw [hmv] at hok
    obtain ⟨m2, hpure, hk⟩ := except_bind_ok_inv _ _ _ hok
    injection hpure with hpure
    subst hpure
    injection hk with hk
    subst hk
    have hm2col : ∀ x ∈ (match pos.row.try_add piece.colour.direction with
        | Except.ok next_row => [({ row := next_row, column := pos.column } : Position)]
        | Except.error _ => []),
        x.column = pos.column := by
      intro x hx
      cases hs : pos.row.try_add piece.colour.direction with
      | ok next_row => rw [hs] at hx; rw [List.mem_singleton.mp hx]
      | error err => rw [hs] at hx; cases hx
    refine ⟨fun hmf => absurd hmf (by decide), ?_⟩
    intro i hi dpos hadd
    have hdcol : dpos.column ≠ pos.column := by
      obtain ⟨-, hc⟩ := add_offset_ok _ _ _ _ hadd
      have hi2 : i = -1 ∨ i = 1 := by simpa using hi
      rcases hi2 with rfl | rfl
      · exact (col_try_add_pm_ne pos.column dpos.column).1 hc
      · exact (col_try_add_pm_ne pos.column dpos.column).2 hc
    constructor
    · intro hmem
      rcases List.mem_append.mp hmem with hmem | hmem
      · exact absurd (hm2col dpos hmem) hdcol
      · exact ((pawn_diag_mem e pos piece dpos).mp hmem).2
    · intro hopp
      exact List.mem_append.mpr (Or.inr
        ((pawn_diag_mem e pos piece dpos).mpr ⟨⟨i, hi, hadd⟩, hopp⟩))

/-- Counterexample to C5 as stated: with an unmoved white pawn on a7 and a
black knight on b8, the b8 diagonal-forward square is occupied by an opposing
piece, yet the generator offers nothing — it errors out on the off-board
double-step row instead. -/
theorem C5_counterexample :
    piece_at pawn_a7_knight_b8_engine.chess_board
        { row := Row.Eight, column := Column.B } =
      some (ChessPiece.mk ChessPieceKind.Knight ChessColour.Black false) ∧
    Position.add_offset { row := Row.Seven, column := Column.A }
        (ChessColour.White.direction) 1 =
      Except.ok { row := Row.Eight, column := Column.B } ∧
    (pawn_a7_knight_b8_engine.available_move_for_pawn
        { row := Row.Seven, column := Column.A }
        (ChessPiece.mk ChessPieceKind.Pawn ChessColour.White false)).isOk = false := by
  decide

/-- Witness for the amended C5 at a concrete input: the pawn-a2 board, where
the generator succeeds and offers the double-step square a4. -/
theorem C5_pawn_candidate_generation_witness :
    ∃ r2, double_step_row { row := Row.Two, column := Column.A }
        (ChessPiece.mk ChessPieceKind.Pawn ChessColour.White false) = Except.ok r2 ∧
      ({ row := r2, column := Column.A } : Position) ∈
        [({ row := Row.Three, column := Column.A } : Position),
         { row := Row.Four, column := Column.A },
         { row := Row.Three, column := Column.B }] :=
  (C5_pawn_candidate_generation pawn_a2_engine { row := Row.Two, column := Column.A }
    (ChessPiece.mk ChessPieceKind.Pawn ChessColour.White false)
    [{ row := Row.Three, column := Column.A }, { row := Row.Four, column := Column.A },
     { row := Row.Three, column := Column.B }]
    (by decide)).1 (by decide)

/-- The descending-score comparator is transitive. -/
theorem score_desc_trans : ∀ a b c : MoveState, score_desc a b = true →
    score_desc b c = true → score_desc a c = true := by
  intro a b c hab hbc
  simp only [score_desc, decide_eq_true_eq] at hab hbc ⊢
  omega

/-- The descending-score comparator is total. -/
theorem score_desc_total : ∀ a b : MoveState,
    (score_desc a b || score_desc b a) = true := by
  intro a b
  simp only [score_desc, Bool.or_eq_true, decide_eq_true_eq]
  exact Int.le_total _ _

/-- In a descending-sorted list, the last element is a member and carries the
minimum score. -/
theorem getLast?_min_of_sorted (l : List MoveState) (m : MoveState)
    (hs : List.Pairwise (fun a b => score_desc a b = true) l)
    (hl : l.getLast? = some m) :
    m ∈ l ∧ ∀ x ∈ l, m.score ≤ x.score := by
  induction l with
  | nil => cases hl
  | cons a t ih =>
    cases t with
    | nil =>
      have hma : m = a := by simpa using hl.symm
      subst hma
      refine ⟨List.mem_singleton.mpr rfl, ?_⟩
      intro x hx
      rw [List.mem_singleton.mp hx]
    | cons b t2 =>
      rw [List.getLast?_cons_cons] at hl
      have hs2 := List.pairwise_cons.mp hs
      obtain ⟨hmem, hmin⟩ := ih hs2.2 hl
      refine ⟨List.mem_cons_of_mem _ hmem, ?_⟩
      intro x hx
      rcases List.mem_cons.mp hx with rfl | hx
      · have := hs2.1 m hmem
        simpa [score_desc, decide_eq_true_eq] using this
      · exact hmin x hx

/-- **C7** — Solver selection: whenever `best_move_from_position` returns a
pair, that pair was recorded and its score is the minimum among all recorded
(move, score) pairs (descending sort, last element popped); and
`solve_next_move` fails exactly when the top-level guard refuses or no pair
was recorded at all. -/
theorem C7_solver_selection (game : ChessGame) (self_colour : ChessColour)
    (context : RecursionContext) (elapsed_secs : Nat) :
    (∀ mv s, best_move_from_position game self_colour context = some (mv, s) →
      ((∃ ms ∈ move_options game self_colour, ms.move_ = mv ∧ ms.score = s) ∧
       ∀ ms ∈ move_options game self_colour, s ≤ ms.score)) ∧
    ((solve_next_move game elapsed_secs).isOk = false ↔
      ((RecursionContext.mk 0 elapsed_secs).should_recurse = false ∨
        move_options game game.get_board.turn = [])) := by
  constructor
  · intro mv s h
    unfold best_move_from_position at h
    cases hg : context.should_recurse
    · rw [hg] at h
      simp at h
    · rw [hg] at h
      simp only [Bool.not_true, Bool.false_eq_true, if_false] at h
      rw [Option.map_eq_some'] at h
      obtain ⟨m, hlast, hms⟩ := h
      haveI : IsTotal MoveState (fun a b => score_desc a b = true) :=
        ⟨fun a b => by
          rcases Bool.or_eq_true _ _ |>.mp (score_desc_total a b) with h | h
          · exact Or.inl h
          · exact Or.inr h⟩
      haveI : IsTrans MoveState (fun a b => score_desc a b = true) :=
        ⟨fun a b c => score_desc_trans a b c⟩
      have hsorted := List.sorted_insertionSort (fun a b => score_desc a b = true)
        (move_options game self_colour)
      obtain ⟨hmem, hmin⟩ := getLast?_min_of_sorted _ m hsorted hlast
      have hperm := List.perm_insertionSort (fun a b => score_desc a b = true)
        (move_options game self_colour)
      obtain ⟨h1, h2⟩ := Prod.mk.injEq .. |>.mp hms
      subst h1
      subst h2
      constructor
      · exact ⟨m, hperm.mem_iff.mp hmem, rfl, rfl⟩
      · intro ms hms2
        exact hmin ms (hperm.mem_iff.mpr hms2)
  · unfold solve_next_move best_move_from_position
    cases hg : (RecursionContext.mk 0 elapsed_secs).should_recurse
    · simp [hg]
      rfl
    · cases hopt : (List.insertionSort (fun a b => score_desc a b = true)
          (move_options game game.get_board.turn)).getLast? with
      | none =>
        have hnil : move_options game game.get_board.turn = [] := by
          have hperm := List.perm_insertionSort (fun a b => score_desc a b = true)
            (move_options game game.get_board.turn)
          have hsnil : List.insertionSort (fun a b => score_desc a b = true)
              (move_options game game.get_board.turn) = [] :=
            List.getLast?_eq_none_iff.mp hopt
          rw [hsnil] at hperm
          exact hperm.symm.eq_nil
        simp [hg, hopt, hnil]
        rfl
      | some m =>
        have hne : move_options game game.get_board.turn ≠ [] := by
          intro hnil
          rw [hnil] at hopt
          simp [List.insertionSort] at hopt
        simp [hg, hopt, hne]
        rfl

/-- Witness for C7 at a concrete input: on the pawn-a2 board (pawn a2, black
rook b3, white to move) the solver returns a2-a4 with score −4, the minimum
among the three recorded pairs (−4, −4, 1). -/
theorem C7_solver_selection_witness :
    (∃ ms ∈ move_options pawn_a2_engine ChessColour.White,
      ms.move_ = Move.mk { row := Row.Two, column := Column.A }
        { row := Row.Four, column := Column.A } ∧ ms.score = -4) ∧
    ∀ ms ∈ move_options pawn_a2_engine ChessColour.White, -4 ≤ ms.score :=
  (C7_solver_selection pawn_a2_engine ChessColour.White
    (RecursionContext.mk 0 0) 0).1
    (Move.mk { row := Row.Two, column := Column.A } { row := Row.Four, column := Column.A })
    (-4) (by decide)

/-- A piece parsed from a character always has `moved = false`. -/
theorem try_from_unmoved (c : Char) (p : ChessPiece)
    (h : ChessPiece.try_from c = Except.ok p) : p.moved = false := by
  unfold ChessPiece.try_from at h
  obtain ⟨k, hk, h2⟩ := except_bind_ok_inv _ _ _ h
  injection h2 with h2
  subst h2
  rfl

/-- A parsed cell holds no moved piece. -/
theorem cell_parse_unmoved (ch : Char) (ij : Nat × Nat) (cell : Cell)
    (h : Cell.parse ch ij = Except.ok cell) :
    ∀ p, cell.piece = some p → p.moved = false := by
  unfold Cell.parse at h
  obtain ⟨pc, hpc, h2⟩ := except_bind_ok_inv _ _ _ h
  injection h2 with h2
  subst h2
  intro p hp
  by_cases hdot : ch = '.'
  · rw [if_pos hdot] at hpc
    injection hpc with hpc
    subst hpc
    cases hp
  · rw [if_neg hdot] at hpc
    cases hq : ChessPiece.try_from ch with
    | error err => rw [hq] at hpc; cases hpc
    | ok q =>
      rw [hq] at hpc
      injection hpc with hpc
      subst hpc
      injection hp with hp
      subst hp
      exact try_from_unmoved ch _ hq

/-- Writing a cell with no moved piece into a grid with no moved piece leaves
a grid with no moved piece. -/
theorem set_preserves_unmoved (b : BoardGrid) (i j : Fin 8) (cell : Cell)
    (hb : ∀ i2 j2 p, (b i2 j2).piece = some p → p.moved = false)
    (hc : ∀ p, cell.piece = some p → p.moved = false) :
    ∀ i2 j2 p, ((BoardGrid.set b i j cell) i2 j2).piece = some p → p.moved = false := by
  intro i2 j2 p hp
  unfold BoardGrid.set at hp
  by_cases h1 : i2 = i
  · rw [if_pos h1] at hp
    by_cases h2 : j2 = j
    · rw [if_pos h2] at hp
      exact hc p hp
    · rw [if_neg h2] at hp
      exact hb _ _ p hp
  · rw [if_neg h1] at hp
    exact hb _ _ p hp

/-- `placeLine` preserves the no-moved-piece grid invariant. -/
theorem placeLine_preserves_unmoved (i : Nat) (hi : i < 8) :
    ∀ (cs : List Char) (j : Nat) (b bout : BoardGrid),
      placeLine i hi b cs j = Except.ok bout →
      (∀ i2 j2 p, (b i2 j2).piece = some p → p.moved = false) →
      ∀ i2 j2 p, (bout i2 j2).piece = some p → p.moved = false := by
  intro cs
  induction cs with
  | nil =>
    intro j b bout h hb
    injection h with h
    subst h
    exact hb
  | cons c rest ih =>
    intro j b bout h hb
    unfold placeLine at h
    by_cases hj : j < 8
    · rw [dif_pos hj] at h
      obtain ⟨cell, hcell, h2⟩ := except_bind_ok_inv _ _ _ h
      exact ih (j + 1) _ bout h2
        (set_preserves_unmoved _ _ _ _ hb (cell_parse_unmoved c (i, j) cell hcell))
    · rw [dif_neg hj] at h
      cases h

/-- `placeLines` preserves the no-moved-piece grid invariant. -/
theorem placeLines_preserves_unmoved :
    ∀ (ls : List (List Char)) (i : Nat) (b bout : BoardGrid),
      placeLines b ls i = Except.ok bout →
      (∀ i2 j2 p, (b i2 j2).piece = some p → p.moved = false) →
      ∀ i2 j2 p, (bout i2 j2).piece = some p → p.moved = false := by
  intro ls
  induction ls with
  | nil =>
    intro i b bout h hb
    injection h with h
    subst h
    exact hb
  | cons line rest ih =>
    intro i b bout h hb
    unfold placeLines at h
    by_cases hi : i < 8
    · rw [dif_pos hi] at h
      obtain ⟨b3, h3, h4⟩ := except_bind_ok_inv _ _ _ h
      exact ih (i + 1) b3 bout h4 (placeLine_preserves_unmoved i hi line 0 b b3 h3 hb)
    · rw [dif_neg hi] at h
      cases h

/-- Every piece on a board parsed from a textual diagram has `moved = false`. -/
theorem from_str_unmoved (s : String) (b : ChessBoard)
    (h : ChessBoard.from_str s = Except.ok b) :
    ∀ i j p, (b.board i j).piece = some p → p.moved = false := by
  unfold ChessBoard.from_str at h
  obtain ⟨grid, hg, h2⟩ := except_bind_ok_inv _ _ _ h
  injection h2 with h2
  subst h2
  exact placeLines_preserves_unmoved _ 0 _ grid hg (by intro i2 j2 p2 hp2; cases hp2)

/-- A successful `make_move` never sets a `moved` flag: the post-move board
carries only pieces copied verbatim from the pre-move board. -/
theorem make_move_preserves_unmoved (e : ChessEngine) (fp tp : Position)
    (st : GameStatus) (e2 : ChessEngine)
    (h : e.make_move fp tp = (Except.ok st, e2))
    (hb : ∀ i j p, (e.chess_board.board i j).piece = some p → p.moved = false) :
    ∀ i j p, (e2.chess_board.board i j).piece = some p → p.moved = false := by
  unfold ChessEngine.make_move at h
  split at h
  · simp at h
  · split at h
    · simp at h
    · split at h
      · simp at h
      · split at h
        · simp at h
        · split at h
          · simp at h
          · injection h with h1 h2
            subst h2
            exact set_preserves_unmoved _ _ _ _
              (set_preserves_unmoved _ _ _ _ hb (fun p hp => hb _ _ p hp))
              (fun p hp => by cases hp)

/-- A sequence of successful `make_move` calls preserves the no-moved-piece
invariant. -/
theorem run_moves_preserves_unmoved :
    ∀ (ms : List (Position × Position)) (e e2 : ChessEngine),
      run_moves e ms = some e2 →
      (∀ i j p, (e.chess_board.board i j).piece = some p → p.moved = false) →
      ∀ i j p, (e2.chess_board.board i j).piece = some p → p.moved = false := by
  intro ms
  induction ms with
  | nil =>
    intro e e2 h hb
    injection h with h
    subst h
    exact hb
  | cons m rest ih =>
    intro e e2 h hb
    unfold run_moves at h
    cases hmv : e.make_move m.1 m.2 with
    | mk res e3 =>
      rw [hmv] at h
      cases res with
      | ok st => exact ih e3 e2 h (make_move_preserves_unmoved e m.1 m.2 st e3 hmv hb)
      | error err => cases h

/-- The boolean `all_unmoved` check agrees with the pointwise property. -/
theorem all_unmoved_iff (b : ChessBoard) :
    all_unmoved b = true ↔
      ∀ i j p, (b.board i j).piece = some p → p.moved = false := by
  unfold all_unmoved
  simp only [List.all_eq_true, List.mem_finRange, true_implies]
  constructor
  · intro h i j p hp
    have h2 := h i j
    rw [hp] at h2
    simpa using h2
  · intro h i j
    cases hp : (b.board i j).piece with
    | none => simp [hp]
    | some p => simp [hp, h i j p hp]

/-- **C8** — moved-flag invariant: starting from any board parsed from a
textual diagram, after any sequence of successful `make_move` calls every
piece on the board still has `moved = false`; no rules-engine operation ever
sets a piece's moved flag. -/
theorem C8_moved_flag_invariant (s : String) (b : ChessBoard)
    (ms : List (Position × Position)) (e2 : ChessEngine)
    (hparse : ChessBoard.from_str s = Except.ok b)
    (hrun : run_moves (engine_of_board b) ms = some e2) :
    all_unmoved e2.chess_board = true := by
  rw [all_unmoved_iff]
  exact run_moves_preserves_unmoved ms _ e2 hrun (from_str_unmoved s b hparse)

/-- Witness for C8 at a concrete input: the single-pawn diagram, one
successful move a1-a2. -/
theorem C8_moved_flag_invariant_witness :
    all_unmoved c8_engine.chess_board = true :=
  C8_moved_flag_invariant c8_diag c8_board
    [({ row := Row.One, column := Column.A }, { row := Row.Two, column := Column.A })]
    c8_engine (by decide) (by decide)
